import Mathlib

deriving instance DecidableEq for Except

/-!
Verification of the structure-loading and validation module (`lib/parsers.py`)
of the prodigy binding-affinity toolkit.

The module parses a PDB/mmCIF coordinate file with Biopython, then cleans and
sanity-checks the resulting `Structure` in place (`validate_structure`):
model collapse, alternate-location collapse, composition filtering, gap
detection and chain selection.  The embedding below mirrors the Biopython
object hierarchy Structure → Model → Chain → Residue → Atom as immutable
values, and renders the in-place mutation of the Python code as explicit
state passing.  Exceptions become `Except` values; since the Python caller
keeps a reference to the structure being mutated, each error carries the
partially-mutated structure alongside the error payload.

Python strings are embedded as Lean `String`; the `str.split` used by the
source is re-implemented on the character list (`pySplit`) so that all
definitions reduce inside the kernel.
-/

namespace Prodigy

/-- Python `s.split(sep)` for a one-character separator, on character lists:
`"a.b" → ["a","b"]`, `"" → [""]`, `"a..b" → ["a","","b"]`. -/
def splitChar (sep : Char) : List Char → List (List Char)
  | [] => [[]]
  | c :: rest =>
    let r := splitChar sep rest
    if c = sep then [] :: r
    else
      match r with
      | [] => [[c]]
      | h :: t => (c :: h) :: t

/-- Python `s.split(sep)` for a one-character separator. -/
def pySplit (sep : Char) (s : String) : List String :=
  (splitChar sep s.data).map (fun l => ⟨l⟩)

/-- Python `str.lower`, character by character. -/
def strToLower (s : String) : String := ⟨s.data.map Char.toLower⟩

/-- Python `str.upper`, character by character. -/
def strToUpper (s : String) : String := ⟨s.data.map Char.toUpper⟩

/-- A single (non-disordered) Biopython `Atom`: its name (which Biopython
also uses as the atom's id inside the parent residue), its alternate-location
marker `altloc`, its `disordered_flag`, and its chemical element symbol. -/
structure Atom where
  name : String
  altloc : String
  disordered_flag : Bool
  element : String
deriving DecidableEq

/-- One child of a residue's atom container.  Biopython stores either a bare
`Atom` or a `DisorderedAtom` wrapper holding the alternate conformations with
one currently selected child (`selected_child`). -/
inductive AtomEntry where
  | plain (a : Atom)
  | disordered (selected_child : Atom) (others : List Atom)
deriving DecidableEq

/-- The id of the entry inside the parent residue.  Biopython sets
`Atom.id = name`, and a `DisorderedAtom` delegates attribute access to its
selected child, so both cases reduce to the (selected) atom's name. -/
def AtomEntry.id : AtomEntry → String
  | .plain a => a.name
  | .disordered sel _ => sel.name

/-- `atom.element`; a `DisorderedAtom` delegates to its selected child. -/
def AtomEntry.element : AtomEntry → String
  | .plain a => a.element
  | .disordered sel _ => sel.element

/-- `atom.is_disordered()`: truthy exactly on `DisorderedAtom` wrappers (a
bare atom answers its own `disordered_flag`, which is falsy for atoms stored
directly in a residue). -/
def AtomEntry.is_disordered : AtomEntry → Bool
  | .plain a => a.disordered_flag
  | .disordered _ _ => true

/-- A Biopython `Residue`.  Its id is the triple
`(hetfield, sequence number, insertion code)`; `resname` is the chemical
name; `atoms` is the ordered child container. -/
structure Residue where
  hetfield : String
  seqnum : Int
  icode : String
  resname : String
  atoms : List AtomEntry
deriving DecidableEq

/-- `res.id`, the key of the residue in its parent chain. -/
def Residue.rid (r : Residue) : String × Int × String := (r.hetfield, r.seqnum, r.icode)

/-- A Biopython `Chain`: an id and the ordered residue container. -/
structure Chain where
  id : String
  residues : List Residue
deriving DecidableEq

/-- A Biopython `Model`: an integer id (the parsers number models 0, 1, 2, …
in file order) and the ordered chain container. -/
structure Model where
  id : Nat
  chains : List Chain
deriving DecidableEq

/-- A Biopython `Structure`: the name given to the parser and the ordered
model container (`child_list`). -/
structure Structure where
  id : String
  models : List Model
deriving DecidableEq

/-- `s.get_chains()`: all chains of all models, in hierarchy order. -/
def allChains (s : Structure) : List Chain := s.models.flatMap Model.chains

/-- `s.get_residues()`: all residues, in hierarchy order. -/
def allResidues (s : Structure) : List Residue := (allChains s).flatMap Chain.residues

/-- The twenty standard amino-acid names used by Biopython's
`is_aa(res, standard=True)` (external collaborator, `Bio.PDB.Polypeptide`). -/
def standard_aa_names : List String :=
  ["ALA", "CYS", "ASP", "GLU", "PHE", "GLY", "HIS", "ILE", "LYS", "LEU",
   "MET", "ASN", "PRO", "GLN", "ARG", "SER", "THR", "VAL", "TRP", "TYR"]

/-- `is_aa(res, standard=True)` from `Bio.PDB.Polypeptide` (external
collaborator): upper-cases the residue's chemical name and tests membership
in the standard twenty. -/
def is_aa (r : Residue) : Bool := decide (strToUpper r.resname ∈ standard_aa_names)

/-- The notice printed by the model-collapse step. -/
def multiModelNotice : String :=
  "[!] Structure contains more than one model. Only the first one will be kept"

/-- Step 1 of `validate_structure` (source lines 28–33): if `len(s) > 1`,
look up `s[0]` — Biopython `__getitem__` is a `child_dict` lookup, so this is
the model whose id is `0` (the parsers number models from 0 in file order;
if no model had id 0 Biopython would raise a `KeyError`) — and detach every
model whose id differs from it, printing a notice. -/
def modelCollapse (s : Structure) : Structure × List String :=
  if s.models.length > 1 then
    ({ s with models := s.models.filter (fun m => m.id == 0) }, [multiModelNotice])
  else (s, [])

/-- The mutation applied to the selected child of a disordered atom before
re-adding it: `sel_at.altloc = ' '; sel_at.disordered_flag = 0`. -/
def clearAltloc (a : Atom) : Atom := { a with altloc := " ", disordered_flag := false }

/-- One iteration of the double-occupancy loop (source lines 36–43), acting
on the current atom container `acc` of the parent residue: for a disordered
entry, `residue.detach_child(atom.id)` followed by `residue.add(sel_at)`
(which appends); a bare atom is left alone. -/
def collapseStep (acc : List AtomEntry) (e : AtomEntry) : List AtomEntry :=
  match e with
  | .disordered sel _ =>
    (acc.filter (fun x => decide (x.id ≠ e.id))) ++ [.plain (clearAltloc sel)]
  | .plain _ => acc

/-- The full double-occupancy pass over one residue: the loop runs over
`list(s.get_atoms())`, a snapshot taken before mutation; each mutation only
touches the parent residue of the current atom, so per residue the loop folds
`collapseStep` over the snapshot of its own atom container. -/
def collapseResidue (r : Residue) : Residue :=
  { r with atoms := r.atoms.foldl collapseStep r.atoms }

/-- Rebuild a structure by transforming every residue in place. -/
def mapResidues (f : Residue → Residue) (s : Structure) : Structure :=
  { s with
    models := s.models.map (fun m =>
      { m with chains := m.chains.map (fun c =>
        { c with residues := c.residues.map f }) }) }

/-- Step 2 of `validate_structure`: the double-occupancy pass over the whole
structure. -/
def disorderCollapse (s : Structure) : Structure := mapResidues collapseResidue s

/-- Steps 1 and 2 of `validate_structure` together, with the notices printed
so far. -/
def stepsOneTwo (s : Structure) : Structure × List String :=
  let p := modelCollapse s
  (disorderCollapse p.1, p.2)

/-- The two `ValueError`s `validate_structure` can raise. -/
inductive ValError where
  | unsupportedResidue (resname : String)
  | chainNotFound (cid : String)
deriving DecidableEq

/-- `_ignore` of the residue loop (source line 47):
`r.id[0][0] == 'W' or r.id[0][0] == 'H'` — the first character of the
hetfield.  Biopython hetfields are `" "`, `"W"` or `"H_…"`, never empty, so
the default character of `headD` is never consulted on parser output. -/
def resIgnore (r : Residue) : Bool :=
  r.hetfield.data.headD ' ' == 'W' || r.hetfield.data.headD ' ' == 'H'

/-- The HETATM/solvent loop of step 3 (source lines 46–53) on one chain.
First argument: the remaining part of the snapshot `res_list`; second: the
current (mutated) residue container of the chain.  An ignored residue is
detached from the container by its id; a surviving residue that is not a
standard amino acid raises, leaving the container in its current state. -/
def runResidueFilter : List Residue → List Residue → Except (ValError × List Residue) (List Residue)
  | [], cur => .ok cur
  | r :: rest, cur =>
    if resIgnore r then
      runResidueFilter rest (cur.filter (fun x => decide (x.rid ≠ r.rid)))
    else if !(is_aa r) then
      .error (.unsupportedResidue r.resname, cur)
    else
      runResidueFilter rest cur

/-- The residue loop over a list of chains, in order; an error carries the
chains as mutated so far (the failing chain partially filtered, the
following chains untouched). -/
def runChainsFilter : List Chain → Except (ValError × List Chain) (List Chain)
  | [] => .ok []
  | c :: rest =>
    match runResidueFilter c.residues c.residues with
    | .error (e, cur) => .error (e, { c with residues := cur } :: rest)
    | .ok cur =>
      match runChainsFilter rest with
      | .error (e, rest2) => .error (e, { c with residues := cur } :: rest2)
      | .ok rest2 => .ok ({ c with residues := cur } :: rest2)

/-- The residue loop over all models, in order. -/
def runModelsFilter : List Model → Except (ValError × List Model) (List Model)
  | [] => .ok []
  | m :: rest =>
    match runChainsFilter m.chains with
    | .error (e, cs) => .error (e, { m with chains := cs } :: rest)
    | .ok cs =>
      match runModelsFilter rest with
      | .error (e, rest2) => .error (e, { m with chains := cs } :: rest2)
      | .ok rest2 => .ok ({ m with chains := cs } :: rest2)

/-- One iteration of the hydrogen-removal loop (source lines 56–61) on the
current atom container of the parent residue:
`if atom.element == 'H': residue.detach_child(atom.name)` (Biopython uses
the atom name as its id, so detaching by name is detaching by id). -/
def removeHStep (acc : List AtomEntry) (e : AtomEntry) : List AtomEntry :=
  if decide (e.element = "H") then acc.filter (fun x => decide (x.id ≠ e.id)) else acc

/-- The hydrogen-removal pass on one residue, folded over the snapshot
`atom_list = list(s.get_atoms())` restricted to the residue (each removal
only touches the parent residue of the current atom). -/
def removeHydrogensRes (r : Residue) : Residue :=
  { r with atoms := r.atoms.foldl removeHStep r.atoms }

/-- Step 3 of `validate_structure` (the `if not prodigy_lig` block, source
lines 44–61): HETATM/solvent removal with the standard-amino-acid check,
then hydrogen removal.  On error the partially-mutated structure is
carried along. -/
def compositionFilter (s : Structure) : Except (ValError × Structure) Structure :=
  match runModelsFilter s.models with
  | .error (e, ms) => .error (e, { s with models := ms })
  | .ok ms => .ok (mapResidues removeHydrogensRes { s with models := ms })

/-- Modelled from the spec: the external peptide-builder collaborator
(`PPBuilder().build_peptides`, from Biopython, not part of this repository)
produces the contiguous peptide fragments of a chain; per the spec's
glossary a gap is "a break in sequential residue numbering", so a fragment
is a maximal run of residues with consecutive sequence numbers. -/
def splitFragments : List Residue → List (List Residue)
  | [] => []
  | r :: rest =>
    match splitFragments rest with
    | (r2 :: f) :: fs =>
      if r2.seqnum = r.seqnum + 1 then (r :: r2 :: f) :: fs
      else [r] :: (r2 :: f) :: fs
    | fs => [r] :: fs

/-- Modelled from the spec: `pep_builder.build_peptides(s)` — all contiguous
peptide fragments of the structure, each tagged with the id of the chain it
came from (`pp[0].parent.id` in the message format). -/
def build_peptides (s : Structure) : List (String × List Residue) :=
  (allChains s).flatMap (fun c => (splitFragments c.residues).map (fun f => (c.id, f)))

/-- Placeholder residue for reading the boundary of a fragment (fragments
are never empty, so it is never consulted). -/
def defaultResidue : Residue := ⟨" ", 0, " ", "", []⟩

/-- One line of the gap diagnostic: first and last residue of fragment `i`
with their chain id, residue name and sequence number. -/
def fragmentText (i : Nat) (p : String × List Residue) : String :=
  let r1 := p.2.headD defaultResidue
  let r2 := p.2.getLastD defaultResidue
  "\t" ++ p.1 ++ " " ++ r1.resname ++ toString r1.seqnum ++ " < Fragment " ++
    toString i ++ " > " ++ p.1 ++ " " ++ r2.resname ++ toString r2.seqnum ++ "\n"

/-- Step 4 of `validate_structure` (source lines 63–76): build the peptide
fragments, count the distinct chain ids, and when the two counts differ
print a multi-line gap report.  Reporting only; the structure is not
touched (the source's raise is commented out). -/
def gapLog (s : Structure) : List String :=
  let peptides := build_peptides s
  let chain_ids := ((allChains s).map Chain.id).dedup
  if peptides.length ≠ chain_ids.length then
    ["[!] Structure contains gaps:\n" ++
      String.join ((peptides.enum).map (fun ip => fragmentText ip.1 ip.2))]
  else []

/-- Flattening of the selection tokens: each token may be a comma-joined
list of chain ids (`for sel in selection: for c in sel.split(',')`). -/
def flattenSelection (selection : List String) : List String :=
  selection.flatMap (fun sel => pySplit ',' sel)

/-- Step 5 of `validate_structure` (source lines 78–91).  `None` and the
empty tuple are both falsy in Python, so an empty token list skips the step.
The matching loop appends each flattened token and raises at the first one
absent from the structure's chain-id set — before the removal loop runs —
so on error the structure is returned untouched.  Otherwise every chain
whose id was not requested is detached from its parent model. -/
def chainSelection (s : Structure) (selection : List String) : Except (ValError × Structure) Structure :=
  if selection.isEmpty then .ok s
  else
    match (flattenSelection selection).find?
        (fun c => decide (c ∉ (allChains s).map Chain.id)) with
    | some c => .error (.chainNotFound c, s)
    | none =>
      .ok { s with models := s.models.map (fun m =>
        { m with chains := m.chains.filter (fun c => decide (c.id ∈ flattenSelection selection)) }) }

/-- Steps 1–3 of `validate_structure` (everything before gap detection and
chain selection), with the notices printed so far. -/
def preSelection (s : Structure) (prodigy_lig : Bool) :
    Except (ValError × Structure) (Structure × List String) :=
  let p := stepsOneTwo s
  match (if prodigy_lig then Except.ok p.1 else compositionFilter p.1) with
  | .error ep => .error ep
  | .ok s3 => .ok (s3, p.2)

/-- `validate_structure(s, selection, prodigy_lig)` (source lines 26–93).
The Python default arguments are `selection=None` (embedded as `[]`, both
falsy) and `prodigy_lig=False`.  Success returns the cleaned structure and
the informational notices printed; a raise returns the error payload and
the structure as mutated up to the raise (the caller's aliased object). -/
def validate_structure (s : Structure) (selection : List String) (prodigy_lig : Bool) :
    Except (ValError × Structure) (Structure × List String) :=
  match preSelection s prodigy_lig with
  | .error ep => .error ep
  | .ok p =>
    let log4 := gapLog p.1
    match chainSelection p.1 selection with
    | .error ep => .error ep
    | .ok s5 => .ok (s5, p.2 ++ log4)

/-- Which external parser `parse_structure` constructs:
`PDBParser(QUIET=1)` for `pdb`/`ent`, `MMCIFParser()` for `cif`. -/
inductive ParserKind where
  | pdbQuiet
  | mmcif
deriving DecidableEq

/-- The failures `parse_structure` can propagate: the `IOError` for an
unsupported extension (carrying the offending extension), the
`Exception(e)` re-raised when the parser fails (carrying only the
underlying cause), and a `ValueError` escaping from validation. -/
inductive ParseErr where
  | unsupportedFormat (ext : String)
  | parseFailure (cause : String)
  | validationError (e : ValError)
deriving DecidableEq

/-- `os.path.basename(path)` (POSIX): the part after the last slash. -/
def basename (path : String) : String := (pySplit '/' path).getLastD ""

/-- `sname = '.'.join(fname.split('.')[:-1])` — the display name. -/
def snameOf (path : String) : String :=
  String.intercalate "." ((pySplit '.' (basename path)).dropLast)

/-- `s_ext = fname.split('.')[-1]` — the final extension, as written
(`fname.split('.')` is never empty, so the `getLastD` default is never
consulted). -/
def extOf (path : String) : String := (pySplit '.' (basename path)).getLastD ""

/-- `_ext = set(('pdb', 'ent', 'cif'))`. -/
def supported_exts : List String := ["pdb", "ent", "cif"]

/-- Parser dispatch (source lines 112–115); only reached with a supported
extension, so the else branch is exactly the `cif` case. -/
def parserKindOf (ext : String) : ParserKind :=
  if ext ∈ ["pdb", "ent"] then .pdbQuiet else .mmcif

/-- The progress notice printed before parsing. -/
def readingNotice (path : String) : String := "[+] Reading structure file: " ++ path

/-- The stderr notice printed when the parser raises. -/
def parseFailNotice (sname : String) : String :=
  "[!] Structure " ++ sname ++ " could not be parsed"

/-- `parse_structure(path)` (source lines 96–125), parameterised by the
external parser: `get_structure` receives the parser variant, the display
name and the path, and either returns a raw structure or raises (its cause
embedded as a string).  The returned pair is (everything printed, result);
the result triple on success is the validated structure, the number of
distinct chain ids and the residue count, both computed on the structure
after in-place validation. -/
def parse_structure (get_structure : ParserKind → String → String → Except String Structure)
    (path : String) : List String × Except ParseErr (Structure × Nat × Nat) :=
  let log0 := [readingNotice path]
  let sname := snameOf path
  let s_ext := extOf path
  if s_ext ∉ supported_exts then
    (log0, .error (.unsupportedFormat s_ext))
  else
    match get_structure (parserKindOf s_ext) sname path with
    | .error e => (log0 ++ [parseFailNotice sname], .error (.parseFailure e))
    | .ok s =>
      match validate_structure s [] false with
      | .error ep => (log0, .error (.validationError ep.1))
      | .ok p =>
        (log0 ++ p.2,
         .ok (p.1, ((allChains p.1).map Chain.id).dedup.length, (allResidues p.1).length))

/-- A residue that step 3 neither removes nor accepts: not solvent/HETATM
and not a standard amino acid — the one that triggers `UnsupportedResidue`. -/
def offender (r : Residue) : Bool := !(resIgnore r) && !(is_aa r)

/-- One removal iteration of the HETATM/solvent loop, without the
amino-acid check: detach the residue by id when ignored. -/
def stripIgnoredStep (acc : List Residue) (r : Residue) : List Residue :=
  if resIgnore r then acc.filter (fun x => decide (x.rid ≠ r.rid)) else acc

/-- The cumulative effect on a chain's residue container of running the
HETATM/solvent removals for the snapshot portion `l`: exactly the
removal part of `runResidueFilter`. -/
def stripIgnored (l cur : List Residue) : List Residue := l.foldl stripIgnoredStep cur

/-- A chain after a completed HETATM/solvent pass over its snapshot. -/
def chainStrip (c : Chain) : Chain := { c with residues := stripIgnored c.residues c.residues }

/-- An atom entry that validation's cleanup passes leave alone: a bare atom,
not flagged disordered, and not a hydrogen. -/
def atomEntryClean : AtomEntry → Bool
  | .plain a => !a.disordered_flag && decide (a.element ≠ "H")
  | .disordered _ _ => false

/-- The "already valid" structures of the round-trip property: a single
model, no disordered atoms, every residue a standard amino acid, no
solvent/HETATM classification, no hydrogens. -/
def is_valid_structure (s : Structure) : Bool :=
  s.models.length == 1 &&
  (allResidues s).all (fun r => !(resIgnore r) && is_aa r && r.atoms.all atomEntryClean)

/-- Follows the spec's words for the ligand-mode property: "only steps 1, 2,
4, 5 apply" — model collapse, alternate-location collapse, gap detection and
chain selection, with composition filtering absent. -/
def validate_steps_1245 (s : Structure) (selection : List String) :
    Except (ValError × Structure) (Structure × List String) :=
  let p := stepsOneTwo s
  let log4 := gapLog p.1
  match chainSelection p.1 selection with
  | .error ep => .error ep
  | .ok s5 => .ok (s5, p.2 ++ log4)

/-- Whether the lower-cased final extension of the path is one of
`pdb`, `ent`, `cif` — the format-tag computation as the claim describes it
("the final filename extension lower-cased"). -/
def lowerExtSupported (path : String) : Bool :=
  decide (strToLower (extOf path) ∈ supported_exts)

/-- Formalisation of the claim that the format tag is the lower-cased
extension: whenever the lower-cased extension is supported,
`parse_structure` must not fail with `UnsupportedFormat`. -/
def claimExtensionLowercased : Prop :=
  ∀ g path log ext, lowerExtSupported path = true →
    parse_structure g path ≠ (log, .error (.unsupportedFormat ext))

/-- Formalisation of "the re-raised `ParseFailure` carries the structure
name": a value that carries the name determines it, so two parse failures
that are equal as values must come from paths with the same display name. -/
def claimParseFailureCarriesName : Prop :=
  ∀ g₁ g₂ p₁ p₂ l₁ l₂ c₁ c₂,
    parse_structure g₁ p₁ = (l₁, Except.error (ParseErr.parseFailure c₁)) →
    parse_structure g₂ p₂ = (l₂, Except.error (ParseErr.parseFailure c₂)) →
    ParseErr.parseFailure c₁ = ParseErr.parseFailure c₂ →
    snameOf p₁ = snameOf p₂

/-- A parser stand-in that always succeeds with an empty structure. -/
def alwaysOkParser : ParserKind → String → String → Except String Structure :=
  fun _ n _ => .ok ⟨n, []⟩

/-- A parser stand-in that always raises with cause `"boom"`. -/
def alwaysFailParser : ParserKind → String → String → Except String Structure :=
  fun _ _ _ => .error "boom"

/-- A carbon alpha atom. -/
def atomCA : Atom := ⟨"CA", " ", false, "C"⟩

/-- A standard glycine residue with one heavy atom. -/
def resGLY (n : Int) : Residue := ⟨" ", n, " ", "GLY", [.plain atomCA]⟩

/-- A water residue (hetfield `W`). -/
def resHOH (n : Int) : Residue := ⟨"W", n, " ", "HOH", [.plain ⟨"O", " ", false, "O"⟩]⟩

/-- A non-standard, non-HETATM-classified residue named `XYZ`. -/
def resXYZ (n : Int) : Residue := ⟨" ", n, " ", "XYZ", [.plain ⟨"C1", " ", false, "C"⟩]⟩

/-- A single-model, single-chain, all-standard structure. -/
def exValid : Structure := ⟨"ex", [⟨0, [⟨"A", [resGLY 1]⟩]⟩]⟩

/-- A model with id 0 holding one glycine chain. -/
def exModelZero : Model := ⟨0, [⟨"A", [resGLY 1]⟩]⟩

/-- A model with id 1 holding one glycine chain. -/
def exModelOne : Model := ⟨1, [⟨"A", [resGLY 1]⟩]⟩

/-- A structure with two models (ids 0 and 1). -/
def exTwoModels : Structure := ⟨"ex2", [exModelZero, exModelOne]⟩

/-- The selected alternate of the disordered hydrogen below. -/
def disHsel : Atom := ⟨"H1", "A", true, "H"⟩

/-- A glycine residue carrying a disordered hydrogen atom with two
alternate locations. -/
def resGLYdisH : Residue :=
  ⟨" ", 1, " ", "GLY", [.plain atomCA, .disordered disHsel [⟨"H1", "B", true, "H"⟩]]⟩

/-- A structure whose only residue carries a disordered hydrogen. -/
def exDisordered : Structure := ⟨"ex5", [⟨0, [⟨"A", [resGLYdisH]⟩]⟩]⟩

/-- `exDisordered` after validation: the hydrogen position is gone. -/
def exDisorderedOut : Structure := ⟨"ex5", [⟨0, [⟨"A", [⟨" ", 1, " ", "GLY", [.plain atomCA]⟩]⟩]⟩]⟩

/-- A chain holding only the non-standard residue `XYZ`. -/
def exOffChain : Chain := ⟨"A", [resXYZ 1]⟩

/-- The model around `exOffChain`. -/
def exOffModel : Model := ⟨0, [exOffChain]⟩

/-- A structure whose only residue is the non-standard `XYZ`. -/
def exOffender : Structure := ⟨"ex7", [exOffModel]⟩

/-- Water, then the non-standard `XYZ`, then water, in one chain. -/
def exInterChain : Chain := ⟨"A", [resHOH 1, resXYZ 2, resHOH 3]⟩

/-- The model around `exInterChain`. -/
def exInterModel : Model := ⟨0, [exInterChain]⟩

/-- The interleaving example for the non-atomic failure. -/
def exInterleaved : Structure := ⟨"ex10", [exInterModel]⟩

/-! ## Theorems -/

/-- Claim C1, counterexample: the claim says the format tag is the final
extension lower-cased, so a path ending in `.PDB` (lower-cased tag `pdb`,
supported) must not fail with `UnsupportedFormat`; the code never
lower-cases and fails with `UnsupportedFormat "PDB"`. -/
theorem c1_counterexample : ¬ claimExtensionLowercased := by
  intro h
  exact h alwaysOkParser "x.PDB" [readingNotice "x.PDB"] "PDB" (by decide) (by decide)

/-- Claim C1 (amended): `parse_structure` derives the format tag from the
final filename extension as written — case-sensitively, with no
lower-casing — and compares it against `pdb`, `ent`, `cif`; whenever that
extension is unsupported it fails with `UnsupportedFormat` carrying the
offending extension, before any parser is invoked (the result is the same
for every parser `g`, which is never consulted). -/
theorem c1_unsupported_extension_fails_before_parsing
    (g : ParserKind → String → String → Except String Structure) (path : String)
    (h : extOf path ∉ supported_exts) :
    parse_structure g path
      = ([readingNotice path], .error (.unsupportedFormat (extOf path))) := by
  simp [parse_structure, h]

/-- Witness for C1's amended theorem at the spec's own example `.xyz`. -/
theorem c1_witness :
    extOf "complex.xyz" ∉ supported_exts ∧
    parse_structure alwaysOkParser "complex.xyz"
      = ([readingNotice "complex.xyz"], .error (.unsupportedFormat "xyz")) :=
  ⟨by decide, c1_unsupported_extension_fails_before_parsing alwaysOkParser "complex.xyz" (by decide)⟩

/-- Claim C2, counterexample: the re-raised failure is `Exception(e)`, which
carries only the cause; two inputs with different display names but the same
parser cause produce equal `ParseFailure` values, so the failure cannot
carry the structure name. -/
theorem c2_counterexample : ¬ claimParseFailureCarriesName := by
  intro h
  have := h alwaysFailParser alwaysFailParser "a.pdb" "b.pdb"
    [readingNotice "a.pdb", parseFailNotice "a"]
    [readingNotice "b.pdb", parseFailNotice "b"]
    "boom" "boom" (by decide) (by decide) rfl
  exact absurd this (by decide)

/-- Claim C2 (amended): when the underlying parser raises, `parse_structure`
re-raises a `ParseFailure` carrying the underlying cause unchanged (the
original cause is not swallowed); the structure name is not carried by the
raised failure itself but appears in the stderr notice emitted just before
the re-raise. -/
theorem c2_parse_failure_carries_cause
    (g : ParserKind → String → String → Except String Structure) (path cause : String)
    (hext : extOf path ∈ supported_exts)
    (hfail : g (parserKindOf (extOf path)) (snameOf path) path = .error cause) :
    parse_structure g path
      = ([readingNotice path, parseFailNotice (snameOf path)], .error (.parseFailure cause)) := by
  simp [parse_structure, hext, hfail]

/-- Witness for C2's amended theorem. -/
theorem c2_witness :
    extOf "prot.pdb" ∈ supported_exts ∧
    alwaysFailParser (parserKindOf (extOf "prot.pdb")) (snameOf "prot.pdb") "prot.pdb"
      = .error "boom" ∧
    parse_structure alwaysFailParser "prot.pdb"
      = ([readingNotice "prot.pdb", parseFailNotice (snameOf "prot.pdb")],
         .error (.parseFailure "boom")) :=
  ⟨by decide, by decide,
    c2_parse_failure_carries_cause alwaysFailParser "prot.pdb" "boom" (by decide) (by decide)⟩

/-- Claim C8: in ligand mode the composition-filtering step is absent —
`validate_structure` with the flag set coincides with the pipeline made of
steps 1, 2, 4 and 5 only, so the residue and atom content is untouched by
step 3. -/
theorem c8_ligand_mode_skips_composition (s : Structure) (selection : List String) :
    validate_structure s selection true = validate_steps_1245 s selection := rfl

/-- `AtomEntry.id` on a bare atom. -/
theorem atomEntry_id_plain (a : Atom) : (AtomEntry.plain a).id = a.name := rfl

/-- `AtomEntry.id` on a disordered wrapper. -/
theorem atomEntry_id_disordered (sel : Atom) (others : List Atom) :
    (AtomEntry.disordered sel others).id = sel.name := rfl

/-- Folding the double-occupancy step over entries none of whose disordered
wrappers carry the id `key` does not change which entries with id `key` are
present. -/
theorem foldl_collapseStep_filter_skip (key : String) (l : List AtomEntry) :
    ∀ acc, (∀ sel others, AtomEntry.disordered sel others ∈ l → sel.name ≠ key) →
      (l.foldl collapseStep acc).filter (fun x => decide (x.id = key))
        = acc.filter (fun x => decide (x.id = key)) := by
  induction l with
  | nil => intro acc _; rfl
  | cons e rest ih =>
    intro acc h
    cases e with
    | plain a =>
      rw [List.foldl_cons]
      exact ih acc (fun s o hm => h s o (List.mem_cons_of_mem _ hm))
    | disordered sel others =>
      have hk : sel.name ≠ key := h sel others (List.mem_cons_self _ _)
      rw [List.foldl_cons,
        ih _ (fun s o hm => h s o (List.mem_cons_of_mem _ hm))]
      simp only [collapseStep, atomEntry_id_disordered, List.filter_append]
      have h1 : List.filter (fun x => decide (x.id = key)) [AtomEntry.plain (clearAltloc sel)]
          = [] := by
        simp [atomEntry_id_plain, clearAltloc, hk]
      rw [h1, List.append_nil, List.filter_filter]
      refine List.filter_congr ?_
      intro x _
      by_cases hx : x.id = key
      · simp [hx, Ne.symm hk]
      · simp [hx]

/-- Claim C5 (amended): for every disordered atom entry, after the
alternate-location collapse pass (step 2 of `validate_structure`) the owning
residue contains exactly one atom entry for that position: the
currently-selected alternate, re-added as a bare atom with its
alternate-location marker cleared to a blank and its disordered flag
cleared, replacing the original disordered entry.  (The pass is computed
over a snapshot of the atom container taken before mutation; the later
composition-filtering step may still remove the resolved atom, e.g. a
disordered hydrogen in non-ligand mode, so this holds at the collapse pass
rather than after the whole of `validate_structure`.) -/
theorem c5_collapse_pass_resolves_disordered (r : Residue) (sel : Atom) (others : List Atom)
    (hmem : AtomEntry.disordered sel others ∈ r.atoms)
    (hnd : (r.atoms.map AtomEntry.id).Nodup) :
    (collapseResidue r).atoms.filter (fun x => decide (x.id = sel.name))
      = [AtomEntry.plain (clearAltloc sel)] := by
  obtain ⟨l1, l2, hsplit⟩ := List.append_of_mem hmem
  have hl2 : ∀ s o, AtomEntry.disordered s o ∈ l2 → s.name ≠ sel.name := by
    intro s o hm heq
    have h2 : (List.map AtomEntry.id (AtomEntry.disordered sel others :: l2)).Nodup := by
      have hnd2 := hnd
      rw [hsplit, List.map_append] at hnd2
      exact hnd2.of_append_right
    rw [List.map_cons] at h2
    have : (AtomEntry.disordered sel others).id ∉ List.map AtomEntry.id l2 :=
      (List.nodup_cons.mp h2).1
    exact this (by
      simpa [AtomEntry.id, heq] using List.mem_map_of_mem AtomEntry.id hm)
  show (r.atoms.foldl collapseStep r.atoms).filter (fun x => decide (x.id = sel.name))
      = [AtomEntry.plain (clearAltloc sel)]
  rw [hsplit, List.foldl_append, List.foldl_cons,
    foldl_collapseStep_filter_skip sel.name l2 _ hl2]
  simp only [collapseStep, atomEntry_id_disordered, List.filter_append]
  have hself : List.filter (fun x => decide (x.id = sel.name))
      [AtomEntry.plain (clearAltloc sel)] = [AtomEntry.plain (clearAltloc sel)] := by
    simp [atomEntry_id_plain, clearAltloc]
  rw [hself, List.filter_filter]
  have hnone : ∀ x ∈ List.foldl collapseStep (l1 ++ AtomEntry.disordered sel others :: l2) l1,
      ¬((decide (x.id = sel.name) && decide (x.id ≠ sel.name)) = true) := by
    intro x _ hx
    rw [Bool.and_eq_true, decide_eq_true_eq, decide_eq_true_eq] at hx
    exact hx.2 hx.1
  rw [List.filter_eq_nil_iff.mpr hnone, List.nil_append]

/-- Claim C5, counterexample to the claim as stated over the whole of
`validate_structure`: a structure with a disordered hydrogen validates
successfully, but afterwards the owning residue contains no atom at that
position at all (the resolved hydrogen was removed by step 3c), not exactly
one. -/
theorem c5_counterexample :
    (∃ r ∈ allResidues exDisordered, ∃ e ∈ r.atoms, e.is_disordered = true) ∧
    validate_structure exDisordered [] false = .ok (exDisorderedOut, []) ∧
    ∀ r ∈ allResidues exDisorderedOut, ∀ e ∈ r.atoms, e.id ≠ "H1" := by
  refine ⟨?_, by decide, by decide⟩
  exact ⟨resGLYdisH, by decide, AtomEntry.disordered disHsel [⟨"H1", "B", true, "H"⟩],
    by decide, rfl⟩

/-- Witness for C5's amended theorem on the disordered-hydrogen residue. -/
theorem c5_witness :
    (AtomEntry.disordered disHsel [⟨"H1", "B", true, "H"⟩] ∈ resGLYdisH.atoms) ∧
    (resGLYdisH.atoms.map AtomEntry.id).Nodup ∧
    (collapseResidue resGLYdisH).atoms.filter (fun x => decide (x.id = disHsel.name))
      = [AtomEntry.plain (clearAltloc disHsel)] :=
  ⟨by decide, by decide,
    c5_collapse_pass_resolves_disordered resGLYdisH disHsel [⟨"H1", "B", true, "H"⟩]
      (by decide) (by decide)⟩

/-- `preSelection` with the ligand flag cleared runs the composition
filter. -/
theorem preSelection_false (s : Structure) :
    preSelection s false
      = match compositionFilter (stepsOneTwo s).1 with
        | .error ep => .error ep
        | .ok s3 => .ok (s3, (stepsOneTwo s).2) := rfl

/-- `preSelection` with the ligand flag set passes steps 1–2 through. -/
theorem preSelection_true (s : Structure) :
    preSelection s true = .ok ((stepsOneTwo s).1, (stepsOneTwo s).2) := rfl

/-- Once steps 1–3 are known to succeed, `validate_structure` is gap
detection plus chain selection on their result. -/
theorem validate_eq_of_preSelection_ok {s : Structure} {sel : List String} {lig : Bool}
    {s3 : Structure} {log : List String} (h : preSelection s lig = .ok (s3, log)) :
    validate_structure s sel lig
      = match chainSelection s3 sel with
        | .error ep => .error ep
        | .ok s5 => .ok (s5, log ++ gapLog s3) := by
  unfold validate_structure
  rw [h]

/-- Claim C3: whenever the flattened selection contains a chain id absent
from the structure as it stands at the chain-selection step,
`validate_structure` fails with `ChainNotFound` naming such an id, and the
structure carried by the failure is exactly the pre-selection structure —
no chain has been removed by the chain-selection step, because every
requested id is checked before any removal happens. -/
theorem c3_chain_not_found_before_removal (s : Structure) (sel : List String) (lig : Bool)
    (s3 : Structure) (log : List String)
    (hpre : preSelection s lig = .ok (s3, log))
    (hmiss : ∃ c ∈ flattenSelection sel, c ∉ (allChains s3).map Chain.id) :
    ∃ c0, validate_structure s sel lig = .error (.chainNotFound c0, s3) ∧
      c0 ∈ flattenSelection sel ∧ c0 ∉ (allChains s3).map Chain.id := by
  have hne : sel.isEmpty = false := by
    obtain ⟨c, hc, _⟩ := hmiss
    cases sel with
    | nil => simp [flattenSelection] at hc
    | cons a l => rfl
  have hsome : ((flattenSelection sel).find?
      (fun c => decide (c ∉ (allChains s3).map Chain.id))).isSome := by
    rw [List.find?_isSome]
    obtain ⟨c, hc, hno⟩ := hmiss
    exact ⟨c, hc, by simpa using hno⟩
  obtain ⟨c0, hc0⟩ := Option.isSome_iff_exists.mp hsome
  have hselres : chainSelection s3 sel = .error (.chainNotFound c0, s3) := by
    unfold chainSelection
    rw [if_neg (by simp [hne]), hc0]
  refine ⟨c0, ?_, List.mem_of_find?_eq_some hc0, by simpa using List.find?_some hc0⟩
  rw [validate_eq_of_preSelection_ok hpre, hselres]

/-- Witness for C3 on a single-chain structure with selection `["B"]`. -/
theorem c3_witness :
    (preSelection exValid false = .ok (exValid, []) ∧
     (∃ c ∈ flattenSelection ["B"], c ∉ (allChains exValid).map Chain.id)) ∧
    ∃ c0, validate_structure exValid ["B"] false = .error (.chainNotFound c0, exValid) ∧
      c0 ∈ flattenSelection ["B"] ∧ c0 ∉ (allChains exValid).map Chain.id :=
  ⟨⟨by decide, by decide⟩,
    c3_chain_not_found_before_removal exValid ["B"] false exValid [] (by decide) (by decide)⟩

/-- Rebuilding every residue in place keeps the model-id list. -/
theorem mapResidues_models_id (f : Residue → Residue) (s : Structure) :
    (mapResidues f s).models.map Model.id = s.models.map Model.id := by
  simp [mapResidues, List.map_map, Function.comp]

/-- A completed residue pass keeps the model-id list. -/
theorem runModelsFilter_ok_ids : ∀ {ms ms2 : List Model},
    runModelsFilter ms = .ok ms2 → ms2.map Model.id = ms.map Model.id := by
  intro ms
  induction ms with
  | nil =>
    intro ms2 h
    simp only [runModelsFilter] at h
    cases h
    rfl
  | cons m rest ih =>
    intro ms2 h
    simp only [runModelsFilter] at h
    cases hc : runChainsFilter m.chains with
    | error e =>
      obtain ⟨e1, cs1⟩ := e
      rw [hc] at h
      simp at h
    | ok cs =>
      rw [hc] at h
      cases hr : runModelsFilter rest with
      | error e2 =>
        obtain ⟨e1, ms1⟩ := e2
        rw [hr] at h
        simp at h
      | ok rest2 =>
        rw [hr] at h
        cases h
        simp [ih hr]

/-- Step 3 keeps the model-id list. -/
theorem compositionFilter_ok_ids {s s3 : Structure} (h : compositionFilter s = .ok s3) :
    s3.models.map Model.id = s.models.map Model.id := by
  unfold compositionFilter at h
  cases hm : runModelsFilter s.models with
  | error e =>
    obtain ⟨e1, ms1⟩ := e
    rw [hm] at h
    simp at h
  | ok ms =>
    rw [hm] at h
    cases h
    rw [mapResidues_models_id]
    exact runModelsFilter_ok_ids hm

/-- A successful `preSelection` keeps the model-id list of the
model-collapse result, and its log is exactly the model-collapse log. -/
theorem preSelection_ok_parts {s : Structure} {lig : Bool} {s3 : Structure} {log : List String}
    (h : preSelection s lig = .ok (s3, log)) :
    s3.models.map Model.id = (modelCollapse s).1.models.map Model.id ∧
    log = (modelCollapse s).2 := by
  cases lig with
  | true =>
    rw [preSelection_true] at h
    simp only [Except.ok.injEq, Prod.mk.injEq] at h
    obtain ⟨h1, h2⟩ := h
    subst h1
    subst h2
    exact ⟨mapResidues_models_id _ _, rfl⟩
  | false =>
    rw [preSelection_false] at h
    cases hcf : compositionFilter (stepsOneTwo s).1 with
    | error e =>
      rw [hcf] at h
      simp at h
    | ok s3' =>
      rw [hcf] at h
      simp only [Except.ok.injEq, Prod.mk.injEq] at h
      obtain ⟨h1, h2⟩ := h
      subst h1
      subst h2
      refine ⟨?_, rfl⟩
      rw [compositionFilter_ok_ids hcf]
      exact mapResidues_models_id _ _

/-- Chain selection keeps the model-id list when it succeeds. -/
theorem chainSelection_ok_models_id {s : Structure} {sel : List String} {s5 : Structure}
    (h : chainSelection s sel = .ok s5) :
    s5.models.map Model.id = s.models.map Model.id := by
  unfold chainSelection at h
  by_cases he : sel.isEmpty
  · rw [if_pos he] at h
    cases h
    rfl
  · rw [if_neg he] at h
    cases hf : (flattenSelection sel).find?
        (fun c => decide (c ∉ (allChains s).map Chain.id)) with
    | some c =>
      rw [hf] at h
      simp at h
    | none =>
      rw [hf] at h
      cases h
      simp [List.map_map, Function.comp]

/-- A failing `preSelection` fails `validate_structure` with the same
payload. -/
theorem validate_error_of_preSelection {s : Structure} {sel : List String} {lig : Bool}
    {ep : ValError × Structure} (h : preSelection s lig = .error ep) :
    validate_structure s sel lig = .error ep := by
  unfold validate_structure
  rw [h]

/-- A successful `validate_structure` decomposes into a successful
`preSelection` followed by a successful `chainSelection`, the final log
being the earlier notices followed by the gap report. -/
theorem validate_ok_parts {s : Structure} {sel : List String} {lig : Bool}
    {s5 : Structure} {log5 : List String}
    (h : validate_structure s sel lig = .ok (s5, log5)) :
    ∃ s3 log, preSelection s lig = .ok (s3, log) ∧ chainSelection s3 sel = .ok s5 ∧
      log5 = log ++ gapLog s3 := by
  cases hp : preSelection s lig with
  | error e =>
    rw [validate_error_of_preSelection hp] at h
    simp at h
  | ok p =>
    obtain ⟨s3, log⟩ := p
    rw [validate_eq_of_preSelection_ok hp] at h
    cases hcs : chainSelection s3 sel with
    | error e =>
      rw [hcs] at h
      simp at h
    | ok s5' =>
      rw [hcs] at h
      simp only [Except.ok.injEq, Prod.mk.injEq] at h
      obtain ⟨h1, h2⟩ := h
      subst h1
      subst h2
      exact ⟨s3, log, rfl, hcs, rfl⟩

/-- Claim C4: for a structure with more than one model (distinct model ids,
the first being id 0 as the parsers produce), the model-collapse step keeps
exactly the original first model with its content, detaching all others and
emitting the diagnostic notice; consequently any successful validation run
ends with exactly that one model and the notice in its log. -/
theorem c4_first_model_kept (s : Structure) (m0 : Model) (rest : List Model)
    (sel : List String) (lig : Bool)
    (hm : s.models = m0 :: rest) (hid : m0.id = 0) (hlen : 1 < s.models.length)
    (hnd : (s.models.map Model.id).Nodup) :
    modelCollapse s = ({ s with models := [m0] }, [multiModelNotice]) ∧
    ∀ s5 log5, validate_structure s sel lig = .ok (s5, log5) →
      s5.models.map Model.id = [m0.id] ∧ multiModelNotice ∈ log5 := by
  have hrest : ∀ m ∈ rest, ¬(m.id == 0) = true := by
    intro m hmem hbeq
    have h0 : (0 : Nat) ∉ rest.map Model.id := by
      have hnd2 := hnd
      rw [hm, List.map_cons, List.nodup_cons, hid] at hnd2
      exact hnd2.1
    exact h0 (by
      have : m.id = 0 := by simpa using hbeq
      rw [← this]
      exact List.mem_map_of_mem Model.id hmem)
  have hfilter : s.models.filter (fun m => m.id == 0) = [m0] := by
    rw [hm, List.filter_cons_of_pos (by simp [hid]), List.filter_eq_nil_iff.mpr hrest]
  have h1 : modelCollapse s = ({ s with models := [m0] }, [multiModelNotice]) := by
    unfold modelCollapse
    rw [if_pos hlen, hfilter]
  refine ⟨h1, ?_⟩
  intro s5 log5 hv
  obtain ⟨s3, log, hp, hcs, hlog⟩ := validate_ok_parts hv
  obtain ⟨hids, hlogp⟩ := preSelection_ok_parts hp
  constructor
  · rw [chainSelection_ok_models_id hcs, hids, h1]
    simp
  · rw [hlog, hlogp, h1]
    simp

/-- Witness for C4 on the two-model structure. -/
theorem c4_witness :
    (exTwoModels.models = exModelZero :: [exModelOne] ∧ exModelZero.id = 0 ∧
     1 < exTwoModels.models.length ∧ (exTwoModels.models.map Model.id).Nodup) ∧
    (modelCollapse exTwoModels
        = ({ exTwoModels with models := [exModelZero] }, [multiModelNotice]) ∧
     ∀ s5 log5, validate_structure exTwoModels [] false = .ok (s5, log5) →
       s5.models.map Model.id = [exModelZero.id] ∧ multiModelNotice ∈ log5) :=
  ⟨⟨by decide, by decide, by decide, by decide⟩,
    c4_first_model_kept exTwoModels exModelZero [exModelOne] [] false
      (by decide) (by decide) (by decide) (by decide)⟩

/-- `AtomEntry.element` on a bare atom. -/
theorem atomEntry_element_plain (a : Atom) : (AtomEntry.plain a).element = a.element := rfl

/-- Membership introduction for `allResidues`. -/
theorem mem_allResidues_of {s : Structure} {m : Model} {c : Chain} {r : Residue}
    (hm : m ∈ s.models) (hc : c ∈ m.chains) (hr : r ∈ c.residues) : r ∈ allResidues s := by
  simp only [allResidues, allChains, List.mem_flatMap]
  exact ⟨c, ⟨m, hm, hc⟩, hr⟩

/-- Membership elimination for `allResidues`. -/
theorem exists_of_mem_allResidues {s : Structure} {r : Residue} (h : r ∈ allResidues s) :
    ∃ m ∈ s.models, ∃ c ∈ m.chains, r ∈ c.residues := by
  simp only [allResidues, allChains, List.mem_flatMap] at h
  obtain ⟨c, ⟨m, hm, hc⟩, hr⟩ := h
  exact ⟨m, hm, c, hc, hr⟩

/-- A pointwise-identity map is the identity. -/
theorem map_eq_self_of_mem {α : Type} {f : α → α} {l : List α} (h : ∀ x ∈ l, f x = x) :
    l.map f = l :=
  (List.map_congr_left h).trans (List.map_id l)

/-- `mapResidues` with a function that fixes every residue of the structure
is the identity. -/
theorem mapResidues_eq_self {f : Residue → Residue} {s : Structure}
    (h : ∀ r ∈ allResidues s, f r = r) : mapResidues f s = s := by
  have hm : ∀ m ∈ s.models, (fun m => { m with chains := m.chains.map (fun c =>
      { c with residues := c.residues.map f }) }) m = m := by
    intro m hmem
    show { m with chains := m.chains.map (fun c => { c with residues := c.residues.map f }) } = m
    have hc : ∀ c ∈ m.chains, (fun c => { c with residues := c.residues.map f }) c = c := by
      intro c hcm
      show { c with residues := c.residues.map f } = c
      have hr : ∀ r ∈ c.residues, f r = r :=
        fun r hrm => h r (mem_allResidues_of hmem hcm hrm)
      rw [map_eq_self_of_mem hr]
    rw [map_eq_self_of_mem hc]
  unfold mapResidues
  rw [map_eq_self_of_mem hm]

/-- The double-occupancy fold does nothing when no entry is disordered. -/
theorem foldl_collapseStep_all_plain : ∀ (l acc : List AtomEntry),
    (∀ e ∈ l, e.is_disordered = false) → l.foldl collapseStep acc = acc := by
  intro l
  induction l with
  | nil => intro acc _; rfl
  | cons e rest ih =>
    intro acc h
    cases e with
    | plain a => exact ih acc (fun x hx => h x (List.mem_cons_of_mem _ hx))
    | disordered sel o =>
      have hd := h _ (List.mem_cons_self _ _)
      simp [AtomEntry.is_disordered] at hd

/-- The double-occupancy pass fixes a residue with no disordered entries. -/
theorem collapseResidue_eq_self {r : Residue}
    (h : ∀ e ∈ r.atoms, e.is_disordered = false) : collapseResidue r = r := by
  unfold collapseResidue
  rw [foldl_collapseStep_all_plain r.atoms r.atoms h]

/-- The hydrogen-removal fold does nothing when no entry is a hydrogen. -/
theorem foldl_removeHStep_no_h : ∀ (l acc : List AtomEntry),
    (∀ e ∈ l, e.element ≠ "H") → l.foldl removeHStep acc = acc := by
  intro l
  induction l with
  | nil => intro acc _; rfl
  | cons e rest ih =>
    intro acc h
    rw [List.foldl_cons, show removeHStep acc e = acc from by
      simp [removeHStep, h e (List.mem_cons_self _ _)]]
    exact ih acc (fun x hx => h x (List.mem_cons_of_mem _ hx))

/-- The hydrogen-removal pass fixes a residue with no hydrogens. -/
theorem removeHydrogensRes_eq_self {r : Residue}
    (h : ∀ e ∈ r.atoms, e.element ≠ "H") : removeHydrogensRes r = r := by
  unfold removeHydrogensRes
  rw [foldl_removeHStep_no_h r.atoms r.atoms h]

/-- The residue loop accepts a chain snapshot with no solvent/HETATM and
only standard amino acids, leaving the container untouched. -/
theorem runResidueFilter_clean_id : ∀ (l cur : List Residue),
    (∀ r ∈ l, resIgnore r = false ∧ is_aa r = true) → runResidueFilter l cur = .ok cur := by
  intro l
  induction l with
  | nil => intro cur _; rfl
  | cons r rest ih =>
    intro cur h
    obtain ⟨h1, h2⟩ := h r (List.mem_cons_self _ _)
    simp only [runResidueFilter, h1, h2]
    simp only [Bool.false_eq_true, if_false, Bool.not_true]
    exact ih cur (fun x hx => h x (List.mem_cons_of_mem _ hx))

/-- The residue loop fixes a list of clean chains. -/
theorem runChainsFilter_clean_id : ∀ (cs : List Chain),
    (∀ c ∈ cs, ∀ r ∈ c.residues, resIgnore r = false ∧ is_aa r = true) →
    runChainsFilter cs = .ok cs := by
  intro cs
  induction cs with
  | nil => intro _; rfl
  | cons c rest ih =>
    intro h
    simp only [runChainsFilter]
    rw [runResidueFilter_clean_id c.residues c.residues (h c (List.mem_cons_self _ _)),
      ih (fun x hx => h x (List.mem_cons_of_mem _ hx))]

/-- The residue loop fixes a list of clean models. -/
theorem runModelsFilter_clean_id : ∀ (ms : List Model),
    (∀ m ∈ ms, ∀ c ∈ m.chains, ∀ r ∈ c.residues, resIgnore r = false ∧ is_aa r = true) →
    runModelsFilter ms = .ok ms := by
  intro ms
  induction ms with
  | nil => intro _; rfl
  | cons m rest ih =>
    intro h
    simp only [runModelsFilter]
    rw [runChainsFilter_clean_id m.chains (h m (List.mem_cons_self _ _)),
      ih (fun x hx => h x (List.mem_cons_of_mem _ hx))]

/-- Step 3 fixes a structure with no solvent/HETATM residues, only standard
amino acids and no hydrogens. -/
theorem compositionFilter_id {s : Structure}
    (h : ∀ r ∈ allResidues s, resIgnore r = false ∧ is_aa r = true)
    (hh : ∀ r ∈ allResidues s, ∀ e ∈ r.atoms, e.element ≠ "H") :
    compositionFilter s = .ok s := by
  unfold compositionFilter
  rw [runModelsFilter_clean_id s.models
    (fun m hm c hc r hr => h r (mem_allResidues_of hm hc hr))]
  have : mapResidues removeHydrogensRes s = s :=
    mapResidues_eq_self (fun r hr => removeHydrogensRes_eq_self (hh r hr))
  exact congrArg Except.ok this

/-- Claim C9: validating an already-valid structure (single model, no
disordered atoms, all residues standard amino acids, no solvent/HETATM,
no hydrogens) with no selection in non-ligand mode returns the structure
unchanged, so a second validation call changes nothing. -/
theorem c9_idempotent_on_valid (s : Structure) (h : is_valid_structure s = true) :
    validate_structure s [] false = .ok (s, gapLog s) ∧
    ∀ s2 log2, validate_structure s [] false = .ok (s2, log2) →
      validate_structure s2 [] false = .ok (s2, log2) := by
  simp only [is_valid_structure, Bool.and_eq_true, beq_iff_eq, List.all_eq_true] at h
  obtain ⟨hlen, hres⟩ := h
  have hprops : ∀ r ∈ allResidues s, resIgnore r = false ∧ is_aa r = true := by
    intro r hr
    obtain ⟨⟨h1, h2⟩, _⟩ := hres r hr
    exact ⟨by simpa using h1, h2⟩
  have hclean : ∀ r ∈ allResidues s, ∀ e ∈ r.atoms, atomEntryClean e = true := by
    intro r hr
    obtain ⟨_, h3⟩ := hres r hr
    exact h3
  have hnoH : ∀ r ∈ allResidues s, ∀ e ∈ r.atoms, e.element ≠ "H" := by
    intro r hr e he
    have hce := hclean r hr e he
    cases e with
    | plain a =>
      simp only [atomEntryClean, Bool.and_eq_true, decide_eq_true_eq] at hce
      simpa [atomEntry_element_plain] using hce.2
    | disordered sel o => simp [atomEntryClean] at hce
  have hnodis : ∀ r ∈ allResidues s, ∀ e ∈ r.atoms, e.is_disordered = false := by
    intro r hr e he
    have hce := hclean r hr e he
    cases e with
    | plain a =>
      simp only [atomEntryClean, Bool.and_eq_true] at hce
      simpa [AtomEntry.is_disordered] using hce.1
    | disordered sel o => simp [atomEntryClean] at hce
  have hmc : modelCollapse s = (s, []) := by
    unfold modelCollapse
    rw [if_neg (by simp [hlen])]
  have hdc : disorderCollapse s = s :=
    mapResidues_eq_self (fun r hr => collapseResidue_eq_self (hnodis r hr))
  have hst : stepsOneTwo s = (s, []) := by
    unfold stepsOneTwo
    rw [hmc]
    simpa using hdc
  have hcf : compositionFilter s = .ok s := compositionFilter_id hprops hnoH
  have hps : preSelection s false = .ok (s, []) := by
    rw [preSelection_false, hst]
    simpa using congrArg (fun x => match x with
      | Except.error ep => Except.error ep
      | Except.ok s3 => Except.ok (s3, ([] : List String))) hcf
  have hmain : validate_structure s [] false = .ok (s, gapLog s) := by
    rw [validate_eq_of_preSelection_ok hps]
    rfl
  refine ⟨hmain, ?_⟩
  intro s2 log2 h2
  rw [hmain] at h2
  simp only [Except.ok.injEq, Prod.mk.injEq] at h2
  obtain ⟨ha, hb⟩ := h2
  subst ha
  subst hb
  exact hmain

/-- Witness for C9 on a concrete valid structure. -/
theorem c9_witness :
    is_valid_structure exValid = true ∧
    (validate_structure exValid [] false = .ok (exValid, gapLog exValid) ∧
     ∀ s2 log2, validate_structure exValid [] false = .ok (s2, log2) →
       validate_structure s2 [] false = .ok (s2, log2)) :=
  ⟨by decide, c9_idempotent_on_valid exValid (by decide)⟩

/-- Whatever the residue loop leaves in the container was already there. -/
theorem runResidueFilter_ok_subset : ∀ {l cur fin : List Residue},
    runResidueFilter l cur = .ok fin → ∀ x ∈ fin, x ∈ cur := by
  intro l
  induction l with
  | nil =>
    intro cur fin h x hx
    simp only [runResidueFilter, Except.ok.injEq] at h
    subst h
    exact hx
  | cons r rest ih =>
    intro cur fin h x hx
    cases hig : resIgnore r with
    | true =>
      simp only [runResidueFilter, hig, if_true] at h
      exact (List.mem_filter.mp (ih h x hx)).1
    | false =>
      cases haa : is_aa r with
      | true =>
        simp [runResidueFilter, hig, haa] at h
        exact ih h x hx
      | false => simp [runResidueFilter, hig, haa] at h

/-- After a completed residue pass no residue with the id of an ignored
snapshot residue remains. -/
theorem runResidueFilter_ok_ignored_removed : ∀ {l cur fin : List Residue},
    runResidueFilter l cur = .ok fin →
    ∀ r ∈ l, resIgnore r = true → ∀ x ∈ fin, x.rid ≠ r.rid := by
  intro l
  induction l with
  | nil =>
    intro cur fin _ r hr
    simp at hr
  | cons r0 rest ih =>
    intro cur fin h r hr hig x hx
    rcases List.mem_cons.mp hr with rfl | hr'
    · simp only [runResidueFilter, hig, if_true] at h
      have hxcur := runResidueFilter_ok_subset h x hx
      have hfil := (List.mem_filter.mp hxcur).2
      simpa using hfil
    · cases hig0 : resIgnore r0 with
      | true =>
        simp only [runResidueFilter, hig0, if_true] at h
        exact ih h r hr' hig x hx
      | false =>
        cases haa0 : is_aa r0 with
        | true =>
          simp [runResidueFilter, hig0, haa0] at h
          exact ih h r hr' hig x hx
        | false => simp [runResidueFilter, hig0, haa0] at h

/-- A completed residue pass saw only standard amino acids among the
non-ignored snapshot residues. -/
theorem runResidueFilter_ok_isaa : ∀ {l cur fin : List Residue},
    runResidueFilter l cur = .ok fin →
    ∀ r ∈ l, resIgnore r = false → is_aa r = true := by
  intro l
  induction l with
  | nil =>
    intro cur fin _ r hr
    simp at hr
  | cons r0 rest ih =>
    intro cur fin h r hr hig
    rcases List.mem_cons.mp hr with rfl | hr'
    · cases haa : is_aa r with
      | true => rfl
      | false => simp [runResidueFilter, hig, haa] at h
    · cases hig0 : resIgnore r0 with
      | true =>
        simp only [runResidueFilter, hig0, if_true] at h
        exact ih h r hr' hig
      | false =>
        cases haa0 : is_aa r0 with
        | true =>
          simp [runResidueFilter, hig0, haa0] at h
          exact ih h r hr' hig
        | false => simp [runResidueFilter, hig0, haa0] at h

/-- Every residue surviving a completed pass over its own chain snapshot is
neither solvent/HETATM nor non-standard. -/
theorem runResidueFilter_self_ok_props {l fin : List Residue}
    (h : runResidueFilter l l = .ok fin) :
    ∀ x ∈ fin, resIgnore x = false ∧ is_aa x = true := by
  intro x hx
  have hxl : x ∈ l := runResidueFilter_ok_subset h x hx
  have hig : resIgnore x = false := by
    cases hig : resIgnore x with
    | false => rfl
    | true => exact absurd rfl (runResidueFilter_ok_ignored_removed h x hxl hig x hx)
  exact ⟨hig, runResidueFilter_ok_isaa h x hxl hig⟩

/-- Chain-level version of `runResidueFilter_self_ok_props`. -/
theorem runChainsFilter_ok_resprops : ∀ {cs cs2 : List Chain},
    runChainsFilter cs = .ok cs2 →
    ∀ c2 ∈ cs2, ∀ x ∈ c2.residues, resIgnore x = false ∧ is_aa x = true := by
  intro cs
  induction cs with
  | nil =>
    intro cs2 h c2 hc2
    simp only [runChainsFilter, Except.ok.injEq] at h
    subst h
    simp at hc2
  | cons c rest ih =>
    intro cs2 h c2 hc2
    simp only [runChainsFilter] at h
    cases hrf : runResidueFilter c.residues c.residues with
    | error e =>
      obtain ⟨e1, cur⟩ := e
      rw [hrf] at h
      simp at h
    | ok cur =>
      rw [hrf] at h
      cases hrc : runChainsFilter rest with
      | error e2 =>
        obtain ⟨e1, r2⟩ := e2
        rw [hrc] at h
        simp at h
      | ok rest2 =>
        rw [hrc] at h
        simp only [Except.ok.injEq] at h
        subst h
        rcases List.mem_cons.mp hc2 with rfl | hmem
        · exact fun x hx => runResidueFilter_self_ok_props hrf x hx
        · exact ih hrc c2 hmem

/-- Model-level version of `runResidueFilter_self_ok_props`. -/
theorem runModelsFilter_ok_resprops : ∀ {ms ms2 : List Model},
    runModelsFilter ms = .ok ms2 →
    ∀ m2 ∈ ms2, ∀ c2 ∈ m2.chains, ∀ x ∈ c2.residues,
      resIgnore x = false ∧ is_aa x = true := by
  intro ms
  induction ms with
  | nil =>
    intro ms2 h m2 hm2
    simp only [runModelsFilter, Except.ok.injEq] at h
    subst h
    simp at hm2
  | cons m rest ih =>
    intro ms2 h m2 hm2
    simp only [runModelsFilter] at h
    cases hc : runChainsFilter m.chains with
    | error e =>
      obtain ⟨e1, cs1⟩ := e
      rw [hc] at h
      simp at h
    | ok cs =>
      rw [hc] at h
      cases hr : runModelsFilter rest with
      | error e2 =>
        obtain ⟨e1, ms1⟩ := e2
        rw [hr] at h
        simp at h
      | ok rest2 =>
        rw [hr] at h
        simp only [Except.ok.injEq] at h
        subst h
        rcases List.mem_cons.mp hm2 with rfl | hmem
        · exact fun c2 hc2 => runChainsFilter_ok_resprops hc c2 hc2
        · exact ih hr m2 hmem

/-- Residue collection of a chain list whose residues were rewritten in
place. -/
theorem flatMap_residues_map_chains (f : Residue → Residue) : ∀ (cs : List Chain),
    (cs.map (fun c => { c with residues := c.residues.map f })).flatMap Chain.residues
      = (cs.flatMap Chain.residues).map f := by
  intro cs
  induction cs with
  | nil => rfl
  | cons c rest ih =>
    simp only [List.map_cons, List.flatMap_cons, List.map_append, ih]

/-- `allResidues` after an in-place residue rewrite. -/
theorem allResidues_mapResidues (f : Residue → Residue) (s : Structure) :
    allResidues (mapResidues f s) = (allResidues s).map f := by
  simp only [allResidues, allChains, mapResidues]
  induction s.models with
  | nil => rfl
  | cons m rest ih =>
    simp only [List.map_cons, List.flatMap_cons, List.flatMap_append, List.map_append, ih,
      flatMap_residues_map_chains]

/-- The hydrogen-removal fold only removes entries. -/
theorem foldl_removeHStep_subset : ∀ (l acc : List AtomEntry) (x : AtomEntry),
    x ∈ l.foldl removeHStep acc → x ∈ acc := by
  intro l
  induction l with
  | nil => intro acc x hx; exact hx
  | cons e rest ih =>
    intro acc x hx
    rw [List.foldl_cons] at hx
    have hmem := ih _ x hx
    unfold removeHStep at hmem
    by_cases he : e.element = "H"
    · rw [if_pos (by simp [he])] at hmem
      exact (List.mem_filter.mp hmem).1
    · rwa [if_neg (by simp [he])] at hmem

/-- A hydrogen entry of the snapshot never survives the hydrogen-removal
fold. -/
theorem foldl_removeHStep_not_mem : ∀ (l acc : List AtomEntry) (x : AtomEntry),
    x ∈ l.foldl removeHStep acc → x.element = "H" → x ∉ l := by
  intro l
  induction l with
  | nil => intro acc x _ _; exact List.not_mem_nil x
  | cons e rest ih =>
    intro acc x hx hH hmem
    rw [List.foldl_cons] at hx
    rcases List.mem_cons.mp hmem with rfl | hmem'
    · have hsub := foldl_removeHStep_subset rest _ x hx
      unfold removeHStep at hsub
      rw [if_pos (by simp [hH])] at hsub
      have hfil := (List.mem_filter.mp hsub).2
      simp at hfil
    · exact ih _ x hx hH hmem'

/-- After the hydrogen-removal pass a residue holds no hydrogen entry. -/
theorem removeHydrogensRes_no_h (r : Residue) :
    ∀ x ∈ (removeHydrogensRes r).atoms, x.element ≠ "H" := by
  intro x hx hH
  exact foldl_removeHStep_not_mem r.atoms r.atoms x hx hH
    (foldl_removeHStep_subset r.atoms r.atoms x hx)

/-- The hydrogen pass does not touch the residue's classification. -/
theorem removeHydrogensRes_resIgnore (r : Residue) :
    resIgnore (removeHydrogensRes r) = resIgnore r := rfl

/-- The hydrogen pass does not touch the residue's chemical name. -/
theorem removeHydrogensRes_is_aa (r : Residue) :
    is_aa (removeHydrogensRes r) = is_aa r := rfl

/-- Chain selection only drops whole chains, so every remaining residue was
already present. -/
theorem chainSelection_ok_allResidues_subset {s : Structure} {sel : List String}
    {s5 : Structure} (h : chainSelection s sel = .ok s5) :
    ∀ r ∈ allResidues s5, r ∈ allResidues s := by
  unfold chainSelection at h
  by_cases he : sel.isEmpty
  · rw [if_pos he] at h
    cases h
    exact fun r hr => hr
  · rw [if_neg he] at h
    cases hf : (flattenSelection sel).find?
        (fun c => decide (c ∉ (allChains s).map Chain.id)) with
    | some c =>
      rw [hf] at h
      simp at h
    | none =>
      rw [hf] at h
      cases h
      intro r hr
      obtain ⟨m', hm', c', hc', hr'⟩ := exists_of_mem_allResidues hr
      simp only [List.mem_map] at hm'
      obtain ⟨m, hm, rfl⟩ := hm'
      exact mem_allResidues_of hm (List.mem_of_mem_filter hc') hr'

/-- Everything a successful step 3 leaves behind is a standard amino acid,
not solvent/HETATM, and hydrogen-free. -/
theorem compositionFilter_ok_props {s s3 : Structure} (h : compositionFilter s = .ok s3) :
    ∀ r ∈ allResidues s3, resIgnore r = false ∧ is_aa r = true ∧
      ∀ e ∈ r.atoms, e.element ≠ "H" := by
  unfold compositionFilter at h
  cases hm : runModelsFilter s.models with
  | error e =>
    obtain ⟨e1, ms1⟩ := e
    rw [hm] at h
    simp at h
  | ok ms =>
    rw [hm] at h
    simp only [Except.ok.injEq] at h
    subst h
    intro r hr
    rw [allResidues_mapResidues] at hr
    obtain ⟨r0, hr0, rfl⟩ := List.mem_map.mp hr
    obtain ⟨m2, hm2, c2, hc2, hrc⟩ := exists_of_mem_allResidues hr0
    have hprops := runModelsFilter_ok_resprops hm m2 hm2 c2 hc2 r0 hrc
    refine ⟨?_, ?_, removeHydrogensRes_no_h r0⟩
    · rw [removeHydrogensRes_resIgnore]
      exact hprops.1
    · rw [removeHydrogensRes_is_aa]
      exact hprops.2

/-- Claim C6: in non-ligand mode, whenever `validate_structure` returns
successfully, every remaining residue is a standard amino acid, none
carries a water/HETATM classification, and no remaining atom has element
symbol `H`. -/
theorem c6_nonligand_postconditions (s : Structure) (sel : List String)
    (s5 : Structure) (log5 : List String)
    (h : validate_structure s sel false = .ok (s5, log5)) :
    ∀ r ∈ allResidues s5, is_aa r = true ∧ resIgnore r = false ∧
      ∀ e ∈ r.atoms, e.element ≠ "H" := by
  obtain ⟨s3, log, hp, hcs, _⟩ := validate_ok_parts h
  rw [preSelection_false] at hp
  cases hcf : compositionFilter (stepsOneTwo s).1 with
  | error e =>
    rw [hcf] at hp
    simp at hp
  | ok s3' =>
    rw [hcf] at hp
    simp only [Except.ok.injEq, Prod.mk.injEq] at hp
    obtain ⟨h1, _⟩ := hp
    subst h1
    intro r hr
    have hr3 := chainSelection_ok_allResidues_subset hcs r hr
    have hps := compositionFilter_ok_props hcf r hr3
    exact ⟨hps.2.1, hps.1, hps.2.2⟩

/-- Witness for C6 on a concrete structure that validates successfully. -/
theorem c6_witness :
    validate_structure exValid [] false = .ok (exValid, []) ∧
    ∀ r ∈ allResidues exValid, is_aa r = true ∧ resIgnore r = false ∧
      ∀ e ∈ r.atoms, e.element ≠ "H" :=
  ⟨by decide, c6_nonligand_postconditions exValid [] exValid [] (by decide)⟩

/-- `stripIgnored` unfolds one snapshot residue at a time. -/
theorem stripIgnored_cons (r : Residue) (l cur : List Residue) :
    stripIgnored (r :: l) cur = stripIgnored l (stripIgnoredStep cur r) := rfl

/-- The removal fold only removes residues. -/
theorem stripIgnored_subset : ∀ (l cur : List Residue) (x : Residue),
    x ∈ stripIgnored l cur → x ∈ cur := by
  intro l
  induction l with
  | nil => intro cur x hx; exact hx
  | cons r rest ih =>
    intro cur x hx
    rw [stripIgnored_cons] at hx
    have hmem := ih _ x hx
    unfold stripIgnoredStep at hmem
    by_cases hig : resIgnore r = true
    · rw [if_pos hig] at hmem
      exact (List.mem_filter.mp hmem).1
    · rwa [if_neg hig] at hmem

/-- Nothing sharing the id of an ignored snapshot residue survives the
removal fold. -/
theorem stripIgnored_rid_ne : ∀ (l cur : List Residue) (x : Residue),
    x ∈ stripIgnored l cur → ∀ w ∈ l, resIgnore w = true → x.rid ≠ w.rid := by
  intro l
  induction l with
  | nil =>
    intro cur x _ w hw
    simp at hw
  | cons r rest ih =>
    intro cur x hx w hw hig
    rw [stripIgnored_cons] at hx
    rcases List.mem_cons.mp hw with rfl | hw'
    · have hsub := stripIgnored_subset rest _ x hx
      unfold stripIgnoredStep at hsub
      rw [if_pos hig] at hsub
      have hfil := (List.mem_filter.mp hsub).2
      simpa using hfil
    · exact ih _ x hx w hw' hig

/-- A residue sharing no id with any ignored snapshot residue survives the
removal fold. -/
theorem mem_stripIgnored_of : ∀ (l cur : List Residue) (x : Residue),
    x ∈ cur → (∀ w ∈ l, resIgnore w = true → x.rid ≠ w.rid) → x ∈ stripIgnored l cur := by
  intro l
  induction l with
  | nil => intro cur x hx _; exact hx
  | cons r rest ih =>
    intro cur x hx h
    rw [stripIgnored_cons]
    refine ih _ x ?_ (fun w hw hig => h w (List.mem_cons_of_mem _ hw) hig)
    unfold stripIgnoredStep
    by_cases hig : resIgnore r = true
    · rw [if_pos hig]
      exact List.mem_filter.mpr ⟨hx, by simpa using h r (List.mem_cons_self _ _) hig⟩
    · rwa [if_neg hig]

/-- Unpacking `offender r = true`. -/
theorem offender_true_parts {r : Residue} (h : offender r = true) :
    resIgnore r = false ∧ is_aa r = false := by
  unfold offender at h
  rw [Bool.and_eq_true, Bool.not_eq_true', Bool.not_eq_true'] at h
  exact h

/-- On an offender-free snapshot the residue loop completes and its effect
on the container is exactly the ignored-residue removals. -/
theorem runResidueFilter_clean_strip : ∀ (l cur : List Residue),
    (∀ r ∈ l, offender r = false) → runResidueFilter l cur = .ok (stripIgnored l cur) := by
  intro l
  induction l with
  | nil => intro cur _; rfl
  | cons r rest ih =>
    intro cur h
    have h0 := h r (List.mem_cons_self _ _)
    cases hig : resIgnore r with
    | true =>
      simp only [runResidueFilter, hig, if_true]
      rw [ih _ (fun x hx => h x (List.mem_cons_of_mem _ hx)), stripIgnored_cons,
        show stripIgnoredStep cur r = cur.filter (fun x => decide (x.rid ≠ r.rid)) from by
          unfold stripIgnoredStep
          rw [if_pos hig]]
    | false =>
      have haa : is_aa r = true := by
        unfold offender at h0
        rw [hig] at h0
        simpa using h0
      simp only [runResidueFilter, hig, haa, Bool.false_eq_true, if_false, Bool.not_true]
      rw [ih _ (fun x hx => h x (List.mem_cons_of_mem _ hx)), stripIgnored_cons,
        show stripIgnoredStep cur r = cur from by
          unfold stripIgnoredStep
          rw [if_neg (by simp [hig])]]

/-- With an offender-free stretch before the first offender, the residue
loop raises `UnsupportedResidue` at the offender, the container at that
moment holding exactly the original content minus the ignored residues seen
so far. -/
theorem runResidueFilter_error_at_offender : ∀ (rpre : List Residue) (r0 : Residue)
    (rpost cur : List Residue), (∀ r ∈ rpre, offender r = false) → offender r0 = true →
    runResidueFilter (rpre ++ r0 :: rpost) cur
      = .error (.unsupportedResidue r0.resname, stripIgnored rpre cur) := by
  intro rpre
  induction rpre with
  | nil =>
    intro r0 rpost cur _ h0
    obtain ⟨hig, haa⟩ := offender_true_parts h0
    simp only [List.nil_append, runResidueFilter, hig, haa]
    rw [if_neg (by simp), if_pos (by simp)]
    rfl
  | cons r rest ih =>
    intro r0 rpost cur h h0
    have hr := h r (List.mem_cons_self _ _)
    cases hig : resIgnore r with
    | true =>
      simp only [List.cons_append, runResidueFilter, hig, if_true, List.append_eq]
      rw [ih r0 rpost _ (fun x hx => h x (List.mem_cons_of_mem _ hx)) h0, stripIgnored_cons,
        show stripIgnoredStep cur r = cur.filter (fun x => decide (x.rid ≠ r.rid)) from by
          unfold stripIgnoredStep
          rw [if_pos hig]]
    | false =>
      have haa : is_aa r = true := by
        unfold offender at hr
        rw [hig] at hr
        simpa using hr
      simp only [List.cons_append, runResidueFilter, hig, haa, Bool.false_eq_true, if_false,
        Bool.not_true, List.append_eq]
      rw [ih r0 rpost _ (fun x hx => h x (List.mem_cons_of_mem _ hx)) h0, stripIgnored_cons,
        show stripIgnoredStep cur r = cur from by
          unfold stripIgnoredStep
          rw [if_neg (by simp [hig])]]

/-- The chain loop on clean chains followed by the chain holding the first
offender: earlier chains are fully stripped of ignored residues, the failing
chain is stripped only up to the offender, later chains are untouched. -/
theorem runChainsFilter_error_eq : ∀ (cpre : List Chain) (ck : Chain) (cpost : List Chain)
    (rpre : List Residue) (r0 : Residue) (rpost : List Residue),
    (∀ c ∈ cpre, ∀ r ∈ c.residues, offender r = false) →
    ck.residues = rpre ++ r0 :: rpost →
    (∀ r ∈ rpre, offender r = false) → offender r0 = true →
    runChainsFilter (cpre ++ ck :: cpost)
      = .error (.unsupportedResidue r0.resname,
          cpre.map chainStrip ++ { ck with residues := stripIgnored rpre ck.residues } :: cpost) := by
  intro cpre
  induction cpre with
  | nil =>
    intro ck cpost rpre r0 rpost _ hck hrpre h0
    simp only [List.nil_append, runChainsFilter, List.map_nil]
    rw [hck, runResidueFilter_error_at_offender rpre r0 rpost _ hrpre h0]
  | cons c crest ih =>
    intro ck cpost rpre r0 rpost hcpre hck hrpre h0
    simp only [List.cons_append, runChainsFilter, List.append_eq]
    rw [runResidueFilter_clean_strip c.residues c.residues (hcpre c (List.mem_cons_self _ _)),
      ih ck cpost rpre r0 rpost (fun x hx => hcpre x (List.mem_cons_of_mem _ hx)) hck hrpre h0]
    rfl

/-- Lifting a chain-loop failure through a one-model structure. -/
theorem runModelsFilter_single_error {m : Model} {e : ValError} {cs : List Chain}
    (h : runChainsFilter m.chains = .error (e, cs)) :
    runModelsFilter [m] = .error (e, [{ m with chains := cs }]) := by
  simp only [runModelsFilter]
  rw [h]

/-- Lifting a chain-loop failure through `compositionFilter`. -/
theorem compositionFilter_error_of {s2 : Structure} {m : Model} {e : ValError}
    {cs : List Chain} (hm : s2.models = [m]) (h : runChainsFilter m.chains = .error (e, cs)) :
    compositionFilter s2 = .error (e, { s2 with models := [{ m with chains := cs }] }) := by
  unfold compositionFilter
  rw [hm, runModelsFilter_single_error h]

/-- Lifting a composition failure through `preSelection`. -/
theorem preSelection_false_of_steps {s s2 : Structure} {log2 : List String}
    (hsteps : stepsOneTwo s = (s2, log2)) {ep : ValError × Structure}
    (hcf : compositionFilter s2 = .error ep) : preSelection s false = .error ep := by
  rw [preSelection_false, hsteps]
  simp [hcf]

/-- Lifting a composition failure through `validate_structure`. -/
theorem validate_error_of_composition {s : Structure} {sel : List String}
    {s2 : Structure} {log2 : List String} {ep : ValError × Structure}
    (hsteps : stepsOneTwo s = (s2, log2)) (hcf : compositionFilter s2 = .error ep) :
    validate_structure s sel false = .error ep :=
  validate_error_of_preSelection (preSelection_false_of_steps hsteps hcf)

/-- Claim C7: in non-ligand mode, a residue that is neither water/HETATM
nor a standard amino acid makes `validate_structure` fail with
`UnsupportedResidue` carrying the chemical name of the first such residue in
traversal order — the scan stops at the failing residue (fail-fast): the
failure names the first offender, never a later one. -/
theorem c7_unsupported_residue_fail_fast (s : Structure) (sel : List String)
    (s2 : Structure) (log2 : List String) (m : Model)
    (cpre : List Chain) (ck : Chain) (cpost : List Chain)
    (rpre : List Residue) (r0 : Residue) (rpost : List Residue)
    (hsteps : stepsOneTwo s = (s2, log2)) (hm : s2.models = [m])
    (hc : m.chains = cpre ++ ck :: cpost) (hck : ck.residues = rpre ++ r0 :: rpost)
    (hcpre : ∀ c ∈ cpre, ∀ r ∈ c.residues, offender r = false)
    (hrpre : ∀ r ∈ rpre, offender r = false) (h0 : offender r0 = true) :
    ∃ sErr, validate_structure s sel false = .error (.unsupportedResidue r0.resname, sErr) := by
  have hrc : runChainsFilter m.chains = .error (.unsupportedResidue r0.resname,
      cpre.map chainStrip ++ { ck with residues := stripIgnored rpre ck.residues } :: cpost) := by
    rw [hc]
    exact runChainsFilter_error_eq cpre ck cpost rpre r0 rpost hcpre hck hrpre h0
  exact ⟨_, validate_error_of_composition hsteps (compositionFilter_error_of hm hrc)⟩

/-- Witness for C7 on the one-residue offender structure. -/
theorem c7_witness :
    (stepsOneTwo exOffender = (exOffender, []) ∧ exOffender.models = [exOffModel] ∧
     exOffModel.chains = [] ++ exOffChain :: [] ∧
     exOffChain.residues = [] ++ resXYZ 1 :: [] ∧
     (∀ c ∈ ([] : List Chain), ∀ r ∈ c.residues, offender r = false) ∧
     (∀ r ∈ ([] : List Residue), offender r = false) ∧ offender (resXYZ 1) = true) ∧
    ∃ sErr, validate_structure exOffender [] false
      = .error (.unsupportedResidue (resXYZ 1).resname, sErr) :=
  ⟨⟨by decide, by decide, by decide, by decide, by decide, by decide, by decide⟩,
    c7_unsupported_residue_fail_fast exOffender [] exOffender [] exOffModel [] exOffChain []
      [] (resXYZ 1) [] (by decide) (by decide) (by decide) (by decide) (by decide) (by decide)
      (by decide)⟩

/-- Claim C10: when the non-ligand composition pass raises
`UnsupportedResidue`, the failure is not atomic — over the single pass that
interleaves removal (a) with the check (b), every water/HETATM residue
preceding the offender in traversal order has already been detached (in the
failing chain and, pairwise, in every earlier chain), while every
water/HETATM residue after the offender is still present and later chains
are untouched. -/
theorem c10_interleaved_removal_not_atomic (s : Structure) (sel : List String)
    (s2 : Structure) (log2 : List String) (m : Model)
    (cpre : List Chain) (ck : Chain) (cpost : List Chain)
    (rpre : List Residue) (r0 : Residue) (rpost : List Residue)
    (hsteps : stepsOneTwo s = (s2, log2)) (hm : s2.models = [m])
    (hc : m.chains = cpre ++ ck :: cpost) (hck : ck.residues = rpre ++ r0 :: rpost)
    (hcpre : ∀ c ∈ cpre, ∀ r ∈ c.residues, offender r = false)
    (hrpre : ∀ r ∈ rpre, offender r = false) (h0 : offender r0 = true)
    (hnd : (ck.residues.map Residue.rid).Nodup) :
    ∃ sErr mErr cpreE ckE,
      validate_structure s sel false = .error (.unsupportedResidue r0.resname, sErr) ∧
      sErr.models = [mErr] ∧
      mErr.chains = cpreE ++ ckE :: cpost ∧
      List.Forall₂ (fun c cE => c.id = cE.id ∧
        ∀ w ∈ c.residues, resIgnore w = true → ∀ x ∈ cE.residues, x.rid ≠ w.rid) cpre cpreE ∧
      ckE.id = ck.id ∧
      (∀ w ∈ rpre, resIgnore w = true → ∀ x ∈ ckE.residues, x.rid ≠ w.rid) ∧
      (∀ w ∈ rpost, resIgnore w = true → w ∈ ckE.residues) := by
  have hrc : runChainsFilter m.chains = .error (.unsupportedResidue r0.resname,
      cpre.map chainStrip ++ { ck with residues := stripIgnored rpre ck.residues } :: cpost) := by
    rw [hc]
    exact runChainsFilter_error_eq cpre ck cpost rpre r0 rpost hcpre hck hrpre h0
  refine ⟨{ s2 with models := [{ m with chains := cpre.map chainStrip ++
      { ck with residues := stripIgnored rpre ck.residues } :: cpost }] },
    { m with chains := cpre.map chainStrip ++
      { ck with residues := stripIgnored rpre ck.residues } :: cpost },
    cpre.map chainStrip,
    { ck with residues := stripIgnored rpre ck.residues },
    validate_error_of_composition hsteps (compositionFilter_error_of hm hrc),
    rfl, rfl, ?_, rfl, ?_, ?_⟩
  · rw [List.forall₂_map_right_iff, List.forall₂_same]
    intro c hc2
    exact ⟨rfl, fun w hw hig x hx => stripIgnored_rid_ne c.residues c.residues x hx w hw hig⟩
  · intro w hw hig x hx
    exact stripIgnored_rid_ne rpre ck.residues x hx w hw hig
  · intro w hw hig
    refine mem_stripIgnored_of rpre ck.residues w ?_ ?_
    · rw [hck]
      exact List.mem_append_right _ (List.mem_cons_of_mem _ hw)
    · intro w2 hw2 hig2 heq
      have hnd2 := hnd
      rw [hck, List.map_append, List.map_cons] at hnd2
      have hdisj := List.disjoint_of_nodup_append hnd2
      have h1 : w2.rid ∈ List.map Residue.rid rpre := List.mem_map_of_mem Residue.rid hw2
      have h2 : w2.rid ∈ r0.rid :: List.map Residue.rid rpost := by
        rw [← heq]
        exact List.mem_cons_of_mem _ (List.mem_map_of_mem Residue.rid hw)
      exact hdisj h1 h2

/-- Witness for C10 on the water–offender–water chain. -/
theorem c10_witness :
    (stepsOneTwo exInterleaved = (exInterleaved, []) ∧
     exInterleaved.models = [exInterModel] ∧
     exInterModel.chains = [] ++ exInterChain :: [] ∧
     exInterChain.residues = [resHOH 1] ++ resXYZ 2 :: [resHOH 3] ∧
     (∀ c ∈ ([] : List Chain), ∀ r ∈ c.residues, offender r = false) ∧
     (∀ r ∈ [resHOH 1], offender r = false) ∧ offender (resXYZ 2) = true ∧
     (exInterChain.residues.map Residue.rid).Nodup) ∧
    ∃ sErr mErr cpreE ckE,
      validate_structure exInterleaved [] false
        = .error (.unsupportedResidue (resXYZ 2).resname, sErr) ∧
      sErr.models = [mErr] ∧
      mErr.chains = cpreE ++ ckE :: [] ∧
      List.Forall₂ (fun c cE => c.id = cE.id ∧
        ∀ w ∈ c.residues, resIgnore w = true → ∀ x ∈ cE.residues, x.rid ≠ w.rid)
        ([] : List Chain) cpreE ∧
      ckE.id = exInterChain.id ∧
      (∀ w ∈ [resHOH 1], resIgnore w = true → ∀ x ∈ ckE.residues, x.rid ≠ w.rid) ∧
      (∀ w ∈ [resHOH 3], resIgnore w = true → w ∈ ckE.residues) :=
  ⟨⟨by decide, by decide, by decide, by decide, by decide, by decide, by decide, by decide⟩,
    c10_interleaved_removal_not_atomic exInterleaved [] exInterleaved [] exInterModel
      [] exInterChain [] [resHOH 1] (resXYZ 2) [resHOH 3]
      (by decide) (by decide) (by decide) (by decide) (by decide) (by decide) (by decide)
      (by decide)⟩

end Prodigy

